import Mathlib

/-!
Verification development for the traffic-pattern-analyser repository.

The repository ships a React presentation layer (FileUpload.jsx, App.jsx,
InsightsPanel.jsx, TrafficChart.jsx, formatTimestamp.js) whose sources are
embedded below directly, and a FastAPI backend (preprocessing.py,
langflow_client.py, main.py) that is documented in the README and the design
spec but whose source files are not part of this tree; the backend pipeline
(validator, cleaner, baseline calculator, anomaly detector, external
analysis client) is therefore modelled from the spec, as flagged on each
definition.

Numeric CSV values are modelled as exact rationals; JavaScript runtime
values that the presentation layer inspects are modelled by the small
inductive type `JsValue` below.
-/

namespace Traffic

/-- Model of a JavaScript runtime value as far as the presentation layer
inspects one: a string, a Date object (valid or invalid), an integer number,
null, or undefined. -/
inductive JsValue where
  | vstr (s : String)
  | vdate (d : Option (ℕ × ℕ × ℕ × ℕ × ℕ × ℕ))
  | vnum (n : ℤ)
  | vnull
  | vundefined
deriving DecidableEq

/-- The six components of a valid JS Date as its getters return them:
day of month, 0-based month, full year, hours, minutes, seconds. -/
structure DateParts where
  day : ℕ
  month : ℕ
  year : ℕ
  hours : ℕ
  minutes : ℕ
  seconds : ℕ
deriving DecidableEq

/-- JavaScript truthiness test on the modelled values: the empty string,
the number 0, null and undefined are falsy; every Date object (valid or
invalid) is truthy. -/
def jsFalsy : JsValue → Bool
  | .vstr s => s = ""
  | .vnum n => n = 0
  | .vnull => true
  | .vundefined => true
  | .vdate _ => false

/-- JavaScript nullish test (the test made by the ?? operator): only null
and undefined are nullish. -/
def jsNullish : JsValue → Bool
  | .vnull => true
  | .vundefined => true
  | _ => false

end Traffic

namespace Traffic

/-- ASCII lowercasing of a string, the model of JavaScript toLowerCase on
the ASCII inputs every claim concerns (identical to Lean's own String
lowercasing, restated over the character list so that it evaluates inside
the kernel). -/
def lowerStr (s : String) : String :=
  String.mk (s.data.map Char.toLower)

/-- Suffix test on strings, the model of JavaScript endsWith. -/
def endsWithStr (s suffix : String) : Bool :=
  suffix.data.isSuffixOf s.data

/-- Whitespace trimming at both ends, the model of JavaScript trim. -/
def trimStr (s : String) : String :=
  String.mk (((s.data.dropWhile Char.isWhitespace).reverse.dropWhile
    Char.isWhitespace).reverse)

/-- Renders a valid Date the way formatTimestamp.js does after its getter
calls: zero-padded day and month (getMonth is 0-based, hence the +1),
unpadded full year, and zero-padded hours, minutes and seconds. -/
def padTwo (n : ℕ) : String :=
  if (toString n).length < 2 then "0" ++ toString n else toString n

/-- The DD/MM/YYYY HH:MM:SS rendering built by formatTimestamp.js from the
Date getters. -/
def fmtDate (d : DateParts) : String :=
  padTwo d.day ++ "/" ++ padTwo (d.month + 1) ++ "/" ++ toString d.year ++ " "
    ++ padTwo d.hours ++ ":" ++ padTwo d.minutes ++ ":" ++ padTwo d.seconds

/-- JavaScript String(v) conversion on the modelled values. A valid Date is
never passed to String() by the code below (it is always formatted instead),
so its rendering is irrelevant to every theorem in this file; it is modelled
as the same formatted rendering. -/
def jsToString : JsValue → String
  | .vstr s => s
  | .vdate none => "Invalid Date"
  | .vdate (some (d, m, y, h, mi, se)) => fmtDate ⟨d, m, y, h, mi, se⟩
  | .vnum n => toString n
  | .vnull => "null"
  | .vundefined => "undefined"

/-- Extracts the Date a value stands for, if any: a string is parsed with
the ambient parse function (the model of new Date(string)); a Date object
carries its own validity; every other value is not a Date. -/
def asValidDate (parse : String → Option DateParts) : JsValue → Option DateParts
  | .vstr s => parse s
  | .vdate none => none
  | .vdate (some (d, m, y, h, mi, se)) => some ⟨d, m, y, h, mi, se⟩
  | _ => none

/-- Embedding of formatTimestamp (formatTimestamp.js): falsy input yields
the em dash placeholder; a string is parsed with new Date (modelled by the
parse parameter) and formatted when valid; a valid Date object is formatted;
everything else (unparseable string, invalid Date, non-Date object) is
returned as its String() conversion. -/
def formatTimestamp (parse : String → Option DateParts) (v : JsValue) : String :=
  if jsFalsy v then "—"
  else
    match v with
    | .vstr s =>
      match parse s with
      | some d => fmtDate d
      | none => s
    | .vdate (some (d, m, y, h, mi, se)) => fmtDate ⟨d, m, y, h, mi, se⟩
    | .vdate none => "Invalid Date"
    | .vnum n => toString n
    | .vnull => "—"
    | .vundefined => "—"

/-- Embedding of safeString (InsightsPanel.jsx): a string passes through,
anything else becomes the empty string. -/
def safeString : JsValue → String
  | .vstr s => s
  | _ => ""

/-- Embedding of normalizeSeverity (InsightsPanel.jsx): lowercase the
safe-string of the input; high and critical map to high, medium and med map
to medium, everything else maps to low. -/
def normalizeSeverity (v : JsValue) : String :=
  let s := lowerStr (safeString v)
  if s = "high" ∨ s = "critical" then "high"
  else if s = "medium" ∨ s = "med" then "medium"
  else "low"

/-- Record shape of one anomaly object of the langflow_analysis response as
the presentation layer reads it (every field may be absent, i.e. undefined). -/
structure RespAnomaly where
  timestamp : JsValue
  time : JsValue
  datetime : JsValue
  location : JsValue
  location_id : JsValue
  locationId : JsValue
  severity : JsValue
deriving DecidableEq

/-- JavaScript a ?? b on the modelled values. -/
def coalesce (a b : JsValue) : JsValue :=
  if jsNullish a then b else a

/-- The timestamp field selection a?.timestamp ?? a?.time ?? a?.datetime
made by App.jsx when keying anomalies. -/
def anomalyTs (a : RespAnomaly) : JsValue :=
  coalesce a.timestamp (coalesce a.time a.datetime)

/-- The location field selection a?.location ?? a?.location_id ??
a?.locationId made by App.jsx when keying anomalies. -/
def anomalyLoc (a : RespAnomaly) : JsValue :=
  coalesce a.location (coalesce a.location_id a.locationId)

/-- Embedding of the anomaly-key construction of App.jsx chartData: skip the
anomaly when the selected timestamp or location is falsy, otherwise build
the string key timestamp ++ "__" ++ location. -/
def chartKey (a : RespAnomaly) : Option String :=
  let ts := anomalyTs a
  let loc := anomalyLoc a
  if jsFalsy ts ∨ jsFalsy loc then none
  else some (jsToString ts ++ "__" ++ jsToString loc)

/-- The severity string InsightsPanel.jsx renders in the severity badge of
an anomaly row. -/
def renderedSeverity (a : RespAnomaly) : String :=
  normalizeSeverity a.severity

/-- Model of a File object as FileUpload.jsx inspects one. -/
structure JsFile where
  name : String
  type : String
  size : ℕ
deriving DecidableEq

/-- The 5 MB upload limit of FileUpload.jsx. -/
def MAX_BYTES : ℕ := 5 * 1024 * 1024

/-- Embedding of isCsvFile (FileUpload.jsx). -/
def isCsvFile (f : JsFile) : Bool :=
  endsWithStr (lowerStr f.name) ".csv" || f.type == "text/csv"

/-- The two state effects of one validateAndSelect call (FileUpload.jsx):
the final localError message and the value passed to onFileSelected. -/
structure SelectOutcome where
  localError : String
  selected : Option JsFile
deriving DecidableEq

/-- Embedding of validateAndSelect (FileUpload.jsx): clear the error; a
missing file deselects silently; a non-CSV file is rejected with an error;
a file over MAX_BYTES is rejected with an error; otherwise the file is
passed to onFileSelected. The size interpolation of the oversize message is
elided, the rest of the message text is kept. -/
def validateAndSelect (file : Option JsFile) : SelectOutcome :=
  match file with
  | none => ⟨"", none⟩
  | some f =>
    if ¬ isCsvFile f then ⟨"Please upload a .csv file.", none⟩
    else if MAX_BYTES < f.size then ⟨"File too large. Max is 5 MB.", none⟩
    else ⟨"", some f⟩

/-- Embedding of the analyze button disabled condition of FileUpload.jsx:
disabled while analyzing, when no file is uploaded, or when a local error
is displayed. -/
def analyzeDisabled (isAnalyzing : Bool) (uploadedFile : Option JsFile)
    (localError : String) : Bool :=
  isAnalyzing || uploadedFile.isNone || !(localError == "")

/-- The recommendations value of the langflow_analysis response as App.jsx
receives it: an array of values, a bare string, or anything else. -/
inductive RecInput where
  | arr (xs : List JsValue)
  | str (s : String)
  | other
deriving DecidableEq

/-- Embedding of the split of normalizeRecommendations (App.jsx) on the
regex matching a line break, the mojibake byte sequence of a bullet, or the
bullet character: walks the characters, closing a segment at each separator
occurrence. A lone carriage return is not a separator. -/
def splitRecsAux : List Char → List Char → List String
  | [], acc => [String.mk acc.reverse]
  | '\r' :: '\n' :: rest, acc => String.mk acc.reverse :: splitRecsAux rest []
  | '\n' :: rest, acc => String.mk acc.reverse :: splitRecsAux rest []
  | 'â' :: '€' :: '¢' :: rest, acc => String.mk acc.reverse :: splitRecsAux rest []
  | '•' :: rest, acc => String.mk acc.reverse :: splitRecsAux rest []
  | c :: rest, acc => splitRecsAux rest (c :: acc)

/-- The string split used by normalizeRecommendations (App.jsx). -/
def splitRecs (s : String) : List String :=
  splitRecsAux s.data []

/-- Embedding of normalizeRecommendations (App.jsx): an array keeps its
truthy elements in order; a string is split on line breaks and bullets,
trimmed, with empty segments dropped; any other value yields the empty
list. -/
def normalizeRecommendations : RecInput → List JsValue
  | .arr xs => xs.filter (fun x => !jsFalsy x)
  | .str s =>
    ((((splitRecs s).map trimStr).filter (fun t => !(t == ""))).map JsValue.vstr)
  | .other => []

/-- Modelled from the spec: the Record produced by parsing one CSV row
(backend/preprocessing.py is not in the tree). The timestamp is none when
the row's timestamp string failed to parse, and is otherwise an abstract
instant measured in hours so that hour-of-day extraction is mod 24; the
numeric columns are none when the CSV cell is missing. -/
structure Row where
  timestamp : Option ℕ
  location_id : String
  vehicle_count : Option ℚ
  avg_speed_kmh : Option ℚ
deriving DecidableEq

/-- The two numeric columns the Cleaner operates on. -/
inductive Col where
  | vc
  | avg
deriving DecidableEq

/-- Reads one numeric column of a row. -/
def getCol : Col → Row → Option ℚ
  | .vc, r => r.vehicle_count
  | .avg, r => r.avg_speed_kmh

/-- Writes one numeric column of a row, leaving every other field alone. -/
def setCol : Col → Row → Option ℚ → Row
  | .vc, r, v => { r with vehicle_count := v }
  | .avg, r, v => { r with avg_speed_kmh := v }

/-- The value of a numeric column once cleaning has made it total. -/
def colVal (c : Col) (r : Row) : ℚ :=
  (getCol c r).getD 0

/-- The default row an out-of-range indexed read falls back to. -/
def defaultRow : Row :=
  ⟨none, "", none, none⟩

/-- Modelled from the spec: the error taxonomy of the missing backend. -/
inductive ValidationError where
  | missingColumn (c : String)
  | tooFewRows (n : ℕ)
deriving DecidableEq

/-- Modelled from the spec: cleaning fails when a majority of timestamps
are unparseable. -/
inductive DataQualityError where
  | majorityUnparseable
deriving DecidableEq

/-- The four required CSV columns of the spec. -/
def required_columns : List String :=
  ["timestamp", "location_id", "vehicle_count", "avg_speed_kmh"]

/-- The minimum row count the Validator accepts. -/
def MIN_RECORDS : ℕ := 10

/-- Modelled from the spec: validate_csv of the missing
backend/preprocessing.py. Fails with ValidationError naming the first
required column absent from the header set, or with the row count when it
is below the threshold of 10; returns the rows unchanged on success. -/
def validate_csv (headers : List String) (rows : List Row) :
    Except ValidationError (List Row) :=
  match required_columns.find? (fun c => !(headers.contains c)) with
  | some c => .error (.missingColumn c)
  | none =>
    if rows.length < MIN_RECORDS then .error (.tooFewRows rows.length)
    else .ok rows

/-- Insertion sort of rationals, the sorted copy the quantile computation
works on. -/
def sortQ (vs : List ℚ) : List ℚ :=
  vs.insertionSort (· ≤ ·)

/-- Reads the i-th element of a sorted value list, clamping the index to
the last position the way linear-interpolation quantile code clamps its
upper index. -/
def sget (s : List ℚ) (i : ℕ) : ℚ :=
  s.getD (min i (s.length - 1)) 0

/-- Linear interpolation at fractional position h of a sorted value list:
the value at floor h plus the fractional part times the gap to the next
value. -/
def interp (s : List ℚ) (h : ℚ) : ℚ :=
  sget s (Rat.floor h).toNat +
    (h - ((Rat.floor h).toNat : ℚ)) *
      (sget s ((Rat.floor h).toNat + 1) - sget s (Rat.floor h).toNat)

/-- Modelled from the spec: the quantile of a value list at fraction q,
with the linear interpolation rule of pandas (position q times n-1 in the
sorted copy). The empty list yields 0. -/
def quantile (vs : List ℚ) (q : ℚ) : ℚ :=
  let s := sortQ vs
  if s.length = 0 then 0 else interp s (q * ((s.length : ℚ) - 1))

/-- Modelled from the spec: the median used for imputation and for outlier
replacement, the 0.5 quantile (which agrees with the classic middle-element
median on both parities). -/
def medianQ (vs : List ℚ) : ℚ :=
  quantile vs (1 / 2)

/-- Modelled from the spec: forward fill of one numeric column along a
location's chronologically sorted rows, carrying the last seen value. -/
def ffillCol (c : Col) : List Row → Option ℚ → List Row
  | [], _ => []
  | r :: rs, last =>
    match getCol c r with
    | some v => r :: ffillCol c rs (some v)
    | none => setCol c r last :: ffillCol c rs last

/-- Modelled from the spec: median imputation of the values of one numeric
column still missing after forward fill, with the per-location median of
the present values (0 when the column is entirely missing, an input the
spec leaves undetermined). -/
def imputeCol (c : Col) (g : List Row) : List Row :=
  let m := medianQ (g.filterMap (getCol c))
  g.map (fun r => if (getCol c r).isNone then setCol c r (some m) else r)

/-- The column values of a group as the IQR step reads them. -/
def colVals (c : Col) (g : List Row) : List ℚ :=
  g.map (colVal c)

/-- The lower IQR fence Q1 - 1.5 IQR of one column of a group. -/
def fenceLo (c : Col) (g : List Row) : ℚ :=
  let q1 := quantile (colVals c g) (1 / 4)
  let q3 := quantile (colVals c g) (3 / 4)
  q1 - 3 / 2 * (q3 - q1)

/-- The upper IQR fence Q3 + 1.5 IQR of one column of a group. -/
def fenceHi (c : Col) (g : List Row) : ℚ :=
  let q1 := quantile (colVals c g) (1 / 4)
  let q3 := quantile (colVals c g) (3 / 4)
  q3 + 3 / 2 * (q3 - q1)

/-- The per-location median of one column of a group at the IQR step. -/
def groupMedian (c : Col) (g : List Row) : ℚ :=
  medianQ (colVals c g)

/-- Modelled from the spec: the IQR outlier step on one column of one
location group. A group with fewer than 4 rows is passed through
unmodified; otherwise every value outside the fence is replaced with the
column's per-location median, in place. -/
def iqrStep (c : Col) (g : List Row) : List Row :=
  if g.length < 4 then g
  else
    g.map (fun r =>
      if colVal c r < fenceLo c g ∨ fenceHi c g < colVal c r then
        setCol c r (some (groupMedian c g))
      else r)

/-- Chronological sort of one location's rows. -/
def sortByTs (g : List Row) : List Row :=
  g.insertionSort (fun a b => a.timestamp.getD 0 ≤ b.timestamp.getD 0)

/-- The final ascending (timestamp, location_id) order of the cleaned
output. -/
def rowLe (a b : Row) : Prop :=
  a.timestamp.getD 0 < b.timestamp.getD 0 ∨
    (a.timestamp.getD 0 = b.timestamp.getD 0 ∧ a.location_id ≤ b.location_id)

instance : DecidableRel rowLe := by
  intro a b
  unfold rowLe
  infer_instance

/-- Modelled from the spec: the per-location cleaning of one group — sort
chronologically, forward fill then median-impute each numeric column, then
apply the IQR outlier step to each numeric column. -/
def cleanGroup (g : List Row) : List Row :=
  let g1 := sortByTs g
  let g2 := imputeCol .avg (ffillCol .avg (imputeCol .vc (ffillCol .vc g1 none)) none)
  iqrStep .avg (iqrStep .vc g2)

/-- Modelled from the spec: clean_data of the missing
backend/preprocessing.py. Rows with unparseable timestamps are dropped,
fatally when they are a majority; the survivors are grouped by location,
each group is cleaned, and the result is sorted ascending by
(timestamp, location_id). -/
def clean (rows : List Row) : Except DataQualityError (List Row) :=
  let kept := rows.filter (fun r => r.timestamp.isSome)
  if rows.length < 2 * (rows.length - kept.length) then
    .error .majorityUnparseable
  else
    let locs := (kept.map (·.location_id)).dedup
    let out := (locs.map (fun l =>
      cleanGroup (kept.filter (fun r => r.location_id == l)))).flatten
    .ok (out.insertionSort rowLe)

/-- The hour of day of a cleaned row, extracted from the abstract instant. -/
def hourOf (r : Row) : ℕ :=
  r.timestamp.getD 0 % 24

/-- The vehicle count of a cleaned row as the baseline and anomaly stages
read it. -/
def vcount (r : Row) : ℚ :=
  r.vehicle_count.getD 0

/-- The (location_id, hour_of_day) grouping key of the baseline stage. -/
def baseKey (r : Row) : String × ℕ :=
  (r.location_id, hourOf r)

/-- Modelled from the spec: the Baseline entry keyed by
(location_id, hour_of_day), with the group's mean vehicle count and a
spread statistic. -/
structure Baseline where
  location_id : String
  hour_of_day : ℕ
  mean_count : ℚ
  spread : ℝ

/-- The key of a baseline entry. -/
def bKey (b : Baseline) : String × ℕ :=
  (b.location_id, b.hour_of_day)

/-- The distinct grouping keys present in a cleaned record set, in order of
first appearance. -/
def baselineKeys (rows : List Row) : List (String × ℕ) :=
  (rows.map baseKey).dedup

/-- The cleaned records of one (location_id, hour_of_day) group. -/
def groupOf (rows : List Row) (k : String × ℕ) : List Row :=
  rows.filter (fun r => baseKey r == k)

/-- The arithmetic mean of the vehicle counts of a group. -/
def groupMean (g : List Row) : ℚ :=
  (g.map vcount).sum / (g.length : ℚ)

/-- Modelled from the spec: the sample variance of the vehicle counts of a
group, 0 for a group with at most one member. -/
def sampleVar (g : List Row) : ℚ :=
  if g.length ≤ 1 then 0
  else (g.map (fun r => (vcount r - groupMean g) ^ 2)).sum / ((g.length : ℚ) - 1)

/-- Modelled from the spec: calculate_baselines of the missing
backend/preprocessing.py. One entry per (location_id, hour_of_day) pair
present in the cleaned data, carrying the group's mean vehicle count and
the standard deviation of the group (0 for a single-member group, where the
variance is 0). -/
noncomputable def calculate_baselines (rows : List Row) : List Baseline :=
  (baselineKeys rows).map (fun k =>
    let g := groupOf rows k
    { location_id := k.1
      hour_of_day := k.2
      mean_count := groupMean g
      spread := Real.sqrt (sampleVar g) })

/-- The anomaly severity levels. -/
inductive Severity where
  | low
  | medium
  | high
deriving DecidableEq

/-- Modelled from the spec: an emitted anomaly. -/
structure Anomaly where
  timestamp : ℕ
  location_id : String
  severity : Severity
  deviation_pct : ℚ
deriving DecidableEq

/-- Modelled from the spec: the Anomaly Detector's treatment of one cleaned
record given the baseline lookup. No baseline or a zero mean emits nothing;
otherwise the relative deviation of the vehicle count from the baseline
mean is classified, boundaries resolving upward: at least 0.50 in absolute
value is high, at least 0.30 is medium, below 0.30 emits nothing. -/
def detectOne (lookup : String → ℕ → Option Baseline) (r : Row) : Option Anomaly :=
  match lookup r.location_id (hourOf r) with
  | none => none
  | some b =>
    if b.mean_count = 0 then none
    else
      let d := (vcount r - b.mean_count) / b.mean_count
      if 1 / 2 ≤ |d| then some ⟨r.timestamp.getD 0, r.location_id, .high, d⟩
      else if 3 / 10 ≤ |d| then some ⟨r.timestamp.getD 0, r.location_id, .medium, d⟩
      else none

/-- Modelled from the spec: detect_anomalies maps the detector over the
cleaned records in order, emitting only the flagged ones. -/
def detect_anomalies (lookup : String → ℕ → Option Baseline) (rows : List Row) :
    List Anomaly :=
  rows.filterMap (detectOne lookup)

/-- Modelled from the spec: the AnalysisResult owned by the External
Analysis Client — anomaly list, insights narrative, recommendation list. -/
structure AnalysisResult where
  anomalies : List Anomaly
  insights : String
  recommendations : List String
deriving DecidableEq

/-- Modelled from the spec: one outcome of one call attempt against the
external service — a successful structurally valid response, a response
with a malformed shape (treated as retryable), a retryable failure
(timeout, 5xx, connection error), or a non-retryable failure (4xx other
than rate limit). -/
inductive SvcOutcome where
  | ok (a : AnalysisResult)
  | badShape
  | retryable
  | fatal
deriving DecidableEq

/-- A failure outcome the retry loop retries on: a retryable failure or a
structurally invalid response. -/
def isRetryableFailure : SvcOutcome → Bool
  | .badShape => true
  | .retryable => true
  | _ => false

/-- The attempt cap of the External Analysis Client. -/
def MAX_ATTEMPTS : ℕ := 3

/-- Modelled from the spec: generate_mock_response of the missing
backend/langflow_client.py — the deterministic fallback AnalysisResult
derived from the already-computed anomaly list. -/
def mock_response (anoms : List Anomaly) : AnalysisResult :=
  { anomalies := anoms
    insights := "Statistical analysis only: the external service was unavailable."
    recommendations := ["Review the flagged locations."] }

/-- Modelled from the spec: the retry loop of send_to_langflow. The first
argument counts attempts already made, the second the attempts remaining;
the pair returned is the result and the total number of attempts made. A
success returns the response; a retryable failure (including a malformed
shape) consumes one attempt; a non-retryable failure short-circuits to the
fallback; exhaustion falls back. -/
def sendLoop (svc : ℕ → SvcOutcome) (anoms : List Anomaly) :
    ℕ → ℕ → AnalysisResult × ℕ
  | made, 0 => (mock_response anoms, made)
  | made, remaining + 1 =>
    match svc made with
    | .ok a => (a, made + 1)
    | .badShape => sendLoop svc anoms (made + 1) remaining
    | .retryable => sendLoop svc anoms (made + 1) remaining
    | .fatal => (mock_response anoms, made + 1)

/-- Modelled from the spec: send_to_langflow of the missing
backend/langflow_client.py, returning the AnalysisResult and the number of
call attempts made. It never fails: every path returns a structurally
valid AnalysisResult. -/
def send_to_langflow (svc : ℕ → SvcOutcome) (anoms : List Anomaly) :
    AnalysisResult × ℕ :=
  sendLoop svc anoms 0 MAX_ATTEMPTS

/-! ### Theorems -/

lemma retryable_cases {o : SvcOutcome} (h : isRetryableFailure o = true) :
    o = .badShape ∨ o = .retryable := by
  cases o <;> simp_all [isRetryableFailure]

lemma sendLoop_attempts_le (svc : ℕ → SvcOutcome) (anoms : List Anomaly) :
    ∀ (rem made : ℕ), (sendLoop svc anoms made rem).2 ≤ made + rem := by
  intro rem
  induction rem with
  | zero => intro made; simp [sendLoop]
  | succ n ih =>
    intro made
    cases h : svc made with
    | ok a => simp [sendLoop, h]
    | badShape =>
      simp only [sendLoop, h]
      exact le_trans (ih (made + 1)) (by omega)
    | retryable =>
      simp only [sendLoop, h]
      exact le_trans (ih (made + 1)) (by omega)
    | fatal => simp [sendLoop, h]

/-- C4: the Validator fails with ValidationError exactly when a required
column is absent from the headers or the row count is below 10, the error
names a genuinely missing column or the short count respectively, and on
success the parsed row set is returned unchanged. -/
theorem c4_validator_contract (headers : List String) (rows : List Row) :
    (validate_csv headers rows = .ok rows ↔
      (∀ c ∈ required_columns, c ∈ headers) ∧ MIN_RECORDS ≤ rows.length) ∧
    (∀ v, validate_csv headers rows = .ok v → v = rows) ∧
    (∀ e, validate_csv headers rows = .error e →
      (∃ c, e = .missingColumn c ∧ c ∈ required_columns ∧ c ∉ headers) ∨
        (e = .tooFewRows rows.length ∧ rows.length < MIN_RECORDS)) := by
  cases hf : required_columns.find? (fun c => !(headers.contains c)) with
  | some c =>
    have hc : c ∈ required_columns := List.mem_of_find?_eq_some hf
    have hcn : c ∉ headers := by simpa using List.find?_some hf
    have hval : validate_csv headers rows = .error (.missingColumn c) := by
      unfold validate_csv
      rw [hf]
    rw [hval]
    refine ⟨iff_of_false (by simp) (fun h => hcn (h.1 c hc)), by simp, ?_⟩
    intro e he
    exact Or.inl ⟨c, (Except.error.injEq _ _ ▸ he).symm, hc, hcn⟩
  | none =>
    have hall : ∀ c ∈ required_columns, c ∈ headers := by
      intro c hc
      simpa using List.find?_eq_none.mp hf c hc
    have hval : validate_csv headers rows =
        (if rows.length < MIN_RECORDS then .error (.tooFewRows rows.length)
          else .ok rows) := by
      unfold validate_csv
      rw [hf]
    by_cases hlen : rows.length < MIN_RECORDS
    · rw [hval, if_pos hlen]
      refine ⟨iff_of_false (by simp) (fun h => by omega), by simp, ?_⟩
      intro e he
      exact Or.inr ⟨(Except.error.injEq _ _ ▸ he).symm, hlen⟩
    · rw [hval, if_neg hlen]
      refine ⟨?_, ?_, by simp⟩
      · exact ⟨fun _ => ⟨hall, by omega⟩, fun _ => rfl⟩
      · intro v hv
        exact (Except.ok.injEq _ _ ▸ hv).symm

/-- C4 witness: a header set missing avg_speed_kmh is rejected with an
error, and a complete header set with 10 rows is accepted unchanged. -/
theorem c4_validator_contract_witness :
    validate_csv ["timestamp", "location_id", "vehicle_count"]
        (List.replicate 10 ⟨some 0, "A", some 1, some 2⟩) ≠
      .ok (List.replicate 10 ⟨some 0, "A", some 1, some 2⟩) ∧
    validate_csv ["timestamp", "location_id", "vehicle_count", "avg_speed_kmh"]
        (List.replicate 10 ⟨some 0, "A", some 1, some 2⟩) =
      .ok (List.replicate 10 ⟨some 0, "A", some 1, some 2⟩) := by
  constructor
  · intro h
    have := (c4_validator_contract ["timestamp", "location_id", "vehicle_count"]
      (List.replicate 10 ⟨some 0, "A", some 1, some 2⟩)).1.mp h
    exact absurd (this.1 "avg_speed_kmh" (by decide)) (by decide)
  · exact (c4_validator_contract
      ["timestamp", "location_id", "vehicle_count", "avg_speed_kmh"]
      (List.replicate 10 ⟨some 0, "A", some 1, some 2⟩)).1.mpr
      ⟨by decide, by simp [MIN_RECORDS]⟩

/-- C3: the External Analysis Client makes at most 3 attempts and always
returns an AnalysisResult; two retryable failures followed by a success
give exactly 3 attempts and the successful response; three retryable
failures give exactly 3 attempts and the deterministic mock fallback built
from the anomaly list; a non-retryable failure short-circuits to the
fallback after 1 attempt. -/
theorem c3_retry_and_fallback (svc : ℕ → SvcOutcome) (anoms : List Anomaly) :
    (send_to_langflow svc anoms).2 ≤ MAX_ATTEMPTS ∧
    (∀ a, isRetryableFailure (svc 0) = true → isRetryableFailure (svc 1) = true →
      svc 2 = .ok a → send_to_langflow svc anoms = (a, 3)) ∧
    ((∀ n, n < 3 → isRetryableFailure (svc n) = true) →
      send_to_langflow svc anoms = (mock_response anoms, 3)) ∧
    (svc 0 = .fatal → send_to_langflow svc anoms = (mock_response anoms, 1)) := by
  refine ⟨sendLoop_attempts_le svc anoms MAX_ATTEMPTS 0, ?_, ?_, ?_⟩
  · intro a h0 h1 h2
    rcases retryable_cases h0 with h0e | h0e <;>
      rcases retryable_cases h1 with h1e | h1e <;>
      simp [send_to_langflow, MAX_ATTEMPTS, sendLoop, h0e, h1e, h2]
  · intro h
    rcases retryable_cases (h 0 (by omega)) with h0e | h0e <;>
      rcases retryable_cases (h 1 (by omega)) with h1e | h1e <;>
      rcases retryable_cases (h 2 (by omega)) with h2e | h2e <;>
      simp [send_to_langflow, MAX_ATTEMPTS, sendLoop, h0e, h1e, h2e]
  · intro h0
    simp [send_to_langflow, MAX_ATTEMPTS, sendLoop, h0]

/-- C3 witness: for the service failing twice then succeeding, exactly 3
attempts occur and the success is returned; for the always-failing service,
exactly 3 attempts occur and the mock fallback is returned; for the
immediately fatal service, 1 attempt occurs and the fallback is returned. -/
theorem c3_retry_and_fallback_witness :
    send_to_langflow (fun n => if n < 2 then .retryable else .ok (mock_response [])) [] =
      (mock_response [], 3) ∧
    send_to_langflow (fun _ => .retryable) [] = (mock_response [], 3) ∧
    send_to_langflow (fun _ => .fatal) [] = (mock_response [], 1) := by
  refine ⟨?_, ?_, ?_⟩
  · exact (c3_retry_and_fallback
      (fun n => if n < 2 then .retryable else .ok (mock_response [])) []).2.1
      (mock_response []) rfl rfl rfl
  · exact (c3_retry_and_fallback (fun _ => .retryable) []).2.2.1 (fun n _ => rfl)
  · exact (c3_retry_and_fallback (fun _ => .fatal) []).2.2.2 rfl

/-- C7: a file over the 5 MB limit is rejected by validateAndSelect — an
error message is set, onFileSelected receives null, and the analyze button
stays disabled whatever the other state — while a file at or under the
limit that passes the CSV check is accepted with no error. -/
theorem c7_upload_size_gate (f : JsFile) :
    (MAX_BYTES < f.size →
      (validateAndSelect (some f)).selected = none ∧
      (validateAndSelect (some f)).localError ≠ "" ∧
      ∀ b : Bool, analyzeDisabled b (validateAndSelect (some f)).selected
        (validateAndSelect (some f)).localError = true) ∧
    (f.size ≤ MAX_BYTES → isCsvFile f = true →
      validateAndSelect (some f) = ⟨"", some f⟩) := by
  by_cases hcsv : isCsvFile f = true
  · constructor
    · intro hsize
      have hval : validateAndSelect (some f) =
          ⟨"File too large. Max is 5 MB.", none⟩ := by
        simp [validateAndSelect, hcsv, hsize]
      rw [hval]
      exact ⟨rfl, by decide, fun b => by cases b <;> rfl⟩
    · intro hsize _
      simp [validateAndSelect, hcsv, not_lt.mpr hsize]
  · constructor
    · intro _
      have hval : validateAndSelect (some f) =
          ⟨"Please upload a .csv file.", none⟩ := by
        simp [validateAndSelect, hcsv]
      rw [hval]
      exact ⟨rfl, by decide, fun b => by cases b <;> rfl⟩
    · intro _ h
      exact absurd h hcsv

/-- C7 witness: a 6 MB CSV file is rejected with an error, null selection
and a disabled analyze button, and a 100-byte CSV file is accepted. -/
theorem c7_upload_size_gate_witness :
    (validateAndSelect (some ⟨"big.csv", "text/csv", 6 * 1024 * 1024⟩)).selected = none ∧
    (validateAndSelect (some ⟨"big.csv", "text/csv", 6 * 1024 * 1024⟩)).localError ≠ "" ∧
    analyzeDisabled false
      (validateAndSelect (some ⟨"big.csv", "text/csv", 6 * 1024 * 1024⟩)).selected
      (validateAndSelect (some ⟨"big.csv", "text/csv", 6 * 1024 * 1024⟩)).localError = true ∧
    validateAndSelect (some ⟨"ok.csv", "text/csv", 100⟩) = ⟨"", some ⟨"ok.csv", "text/csv", 100⟩⟩ := by
  obtain ⟨h1, h2, h3⟩ := (c7_upload_size_gate ⟨"big.csv", "text/csv", 6 * 1024 * 1024⟩).1
    (by decide)
  exact ⟨h1, h2, h3 false,
    (c7_upload_size_gate ⟨"ok.csv", "text/csv", 100⟩).2 (by decide) (by decide)⟩

/-- C8: the severity badge the presentation layer renders is the anomaly's
own severity string whenever that string is one of high, medium, low, and
the anomaly key used for matching against processed records is the
timestamp followed by two underscores and the location. -/
theorem c8_severity_verbatim (a : RespAnomaly) :
    (∀ s, a.severity = .vstr s → s = "high" ∨ s = "medium" ∨ s = "low" →
      renderedSeverity a = s) ∧
    (∀ ts loc, a.timestamp = .vstr ts → a.location = .vstr loc →
      ts ≠ "" → loc ≠ "" → chartKey a = some (ts ++ "__" ++ loc)) := by
  constructor
  · intro s hs hset
    rw [renderedSeverity, hs]
    rcases hset with rfl | rfl | rfl <;> with_unfolding_all rfl
  · intro ts loc hts hloc htsne hlocne
    simp [chartKey, anomalyTs, anomalyLoc, coalesce, jsNullish, jsFalsy, jsToString,
      hts, hloc, htsne, hlocne]

/-- C8 witness: an anomaly carrying severity medium, a timestamp and a
location renders the badge medium and keys as timestamp__location. -/
theorem c8_severity_verbatim_witness :
    renderedSeverity ⟨.vstr "2024-01-22 08:00:00", .vundefined, .vundefined,
      .vstr "LOC_01", .vundefined, .vundefined, .vstr "medium"⟩ = "medium" ∧
    chartKey ⟨.vstr "2024-01-22 08:00:00", .vundefined, .vundefined,
      .vstr "LOC_01", .vundefined, .vundefined, .vstr "medium"⟩ =
      some ("2024-01-22 08:00:00" ++ "__" ++ "LOC_01") := by
  constructor
  · exact (c8_severity_verbatim _).1 "medium" rfl (Or.inr (Or.inl rfl))
  · exact (c8_severity_verbatim _).2 "2024-01-22 08:00:00" "LOC_01" rfl rfl
      (by decide) (by decide)

/-- C10: normalizeRecommendations always yields a list — for an array
input, exactly the truthy elements in their original order; for a string
input, the segments obtained by splitting on line breaks and bullet marks,
trimmed, with empty segments dropped (hence every emitted item is a
non-empty string); for any other input, the empty list. -/
theorem c10_recommendations_shape (i : RecInput) :
    (∀ xs, i = .arr xs →
      normalizeRecommendations i = xs.filter (fun x => !jsFalsy x)) ∧
    (∀ s, i = .str s →
      normalizeRecommendations i =
        (((splitRecs s).map trimStr).filter (fun t => !(t == ""))).map JsValue.vstr ∧
      ∀ x ∈ normalizeRecommendations i, ∃ t, x = JsValue.vstr t ∧ t ≠ "") ∧
    (i = .other → normalizeRecommendations i = []) := by
  refine ⟨?_, ?_, ?_⟩
  · rintro xs rfl
    rfl
  · rintro s rfl
    refine ⟨rfl, ?_⟩
    intro x hx
    rcases List.mem_map.mp hx with ⟨t, ht, rfl⟩
    refine ⟨t, rfl, ?_⟩
    simpa using (List.mem_filter.mp ht).2
  · rintro rfl
    rfl

/-- C10 witness: a string of two bulleted lines becomes the two trimmed
items, not a single verbatim string. -/
theorem c10_recommendations_shape_witness :
    normalizeRecommendations (.str "Add a signal\n• Stagger work hours") =
      [.vstr "Add a signal", .vstr "Stagger work hours"] ∧
    normalizeRecommendations (.arr [.vstr "keep", .vnull]) = [.vstr "keep"] ∧
    normalizeRecommendations .other = [] := by
  refine ⟨?_, ?_, ?_⟩
  · exact (((c10_recommendations_shape _).2.1 _ rfl).1).trans (by decide)
  · exact ((c10_recommendations_shape _).1 _ rfl).trans (by decide)
  · exact (c10_recommendations_shape _).2.2 rfl

/-- C9: formatTimestamp is total — a falsy input renders as the em dash
placeholder, an input standing for a valid date (a parseable string or a
valid Date object) renders as the DD/MM/YYYY HH:MM:SS formatting of that
date, and every other input is returned as its String() conversion. -/
theorem c9_format_timestamp (parse : String → Option DateParts) (v : JsValue) :
    (jsFalsy v = true → formatTimestamp parse v = "—") ∧
    (jsFalsy v = false → ∀ d, asValidDate parse v = some d →
      formatTimestamp parse v = fmtDate d) ∧
    (jsFalsy v = false → asValidDate parse v = none →
      formatTimestamp parse v = jsToString v) := by
  refine ⟨fun hf => by simp [formatTimestamp, hf], ?_, ?_⟩
  · intro hf d hd
    cases v with
    | vstr s =>
      simp only [asValidDate] at hd
      simp [formatTimestamp, jsFalsy] at hf
      simp [formatTimestamp, jsFalsy, hf, hd]
    | vdate o =>
      cases o with
      | none => simp [asValidDate] at hd
      | some p =>
        obtain ⟨d1, m1, y1, h1, mi1, s1⟩ := p
        simp only [asValidDate, Option.some.injEq] at hd
        simp [formatTimestamp, jsFalsy, ← hd]
    | vnum n => simp [asValidDate] at hd
    | vnull => simp [jsFalsy] at hf
    | vundefined => simp [jsFalsy] at hf
  · intro hf hd
    cases v with
    | vstr s =>
      simp only [asValidDate] at hd
      simp [formatTimestamp, jsFalsy] at hf
      simp [formatTimestamp, jsToString, jsFalsy, hf, hd]
    | vdate o =>
      cases o with
      | none => simp [formatTimestamp, jsToString, jsFalsy]
      | some p =>
        obtain ⟨d1, m1, y1, h1, mi1, s1⟩ := p
        simp [asValidDate] at hd
    | vnum n =>
      simp [jsFalsy] at hf
      simp [formatTimestamp, jsToString, jsFalsy, hf]
    | vnull => simp [jsFalsy] at hf
    | vundefined => simp [jsFalsy] at hf

/-- C9 witness: null renders as the placeholder, a parseable string renders
as its formatted date, and an unparseable string is returned unchanged. -/
theorem c9_format_timestamp_witness :
    formatTimestamp (fun s => if s = "2024-01-22 08:00:00"
        then some ⟨22, 0, 2024, 8, 0, 0⟩ else none) .vnull = "—" ∧
    formatTimestamp (fun s => if s = "2024-01-22 08:00:00"
        then some ⟨22, 0, 2024, 8, 0, 0⟩ else none) (.vstr "2024-01-22 08:00:00") =
      fmtDate ⟨22, 0, 2024, 8, 0, 0⟩ ∧
    formatTimestamp (fun s => if s = "2024-01-22 08:00:00"
        then some ⟨22, 0, 2024, 8, 0, 0⟩ else none) (.vstr "nonsense") =
      jsToString (.vstr "nonsense") := by
  refine ⟨?_, ?_, ?_⟩
  · exact (c9_format_timestamp (fun s => if s = "2024-01-22 08:00:00"
      then some ⟨22, 0, 2024, 8, 0, 0⟩ else none) .vnull).1 rfl
  · exact (c9_format_timestamp (fun s => if s = "2024-01-22 08:00:00"
      then some ⟨22, 0, 2024, 8, 0, 0⟩ else none)
      (.vstr "2024-01-22 08:00:00")).2.1 (by decide) ⟨22, 0, 2024, 8, 0, 0⟩ (by decide)
  · exact (c9_format_timestamp (fun s => if s = "2024-01-22 08:00:00"
      then some ⟨22, 0, 2024, 8, 0, 0⟩ else none)
      (.vstr "nonsense")).2.2 (by decide) (by decide)

/-- C1: the Anomaly Detector emits an anomaly for a cleaned record exactly
when a baseline exists for its (location_id, hour_of_day) key, the
baseline mean is non-zero, and the absolute relative deviation is at least
0.30; the emitted anomaly carries that deviation and the record's identity,
with severity high exactly when the absolute deviation is at least 0.50 and
medium exactly when it lies in [0.30, 0.50). -/
theorem c1_anomaly_detector (lookup : String → ℕ → Option Baseline) (r : Row) :
    ((detectOne lookup r).isSome = true ↔
      ∃ b, lookup r.location_id (hourOf r) = some b ∧ b.mean_count ≠ 0 ∧
        3 / 10 ≤ |(vcount r - b.mean_count) / b.mean_count|) ∧
    (∀ b a, lookup r.location_id (hourOf r) = some b →
      detectOne lookup r = some a →
      a.deviation_pct = (vcount r - b.mean_count) / b.mean_count ∧
      a.timestamp = r.timestamp.getD 0 ∧
      a.location_id = r.location_id ∧
      (a.severity = .high ↔ 1 / 2 ≤ |a.deviation_pct|) ∧
      (a.severity = .medium ↔
        3 / 10 ≤ |a.deviation_pct| ∧ |a.deviation_pct| < 1 / 2)) := by
  cases hl : lookup r.location_id (hourOf r) with
  | none =>
    refine ⟨by simp [detectOne, hl], ?_⟩
    intro b a hb
    simp at hb
  | some b0 =>
    by_cases hm : b0.mean_count = 0
    · refine ⟨by simp [detectOne, hl, hm], ?_⟩
      intro b a hb ha
      obtain rfl : b0 = b := Option.some_inj.mp hb
      simp [detectOne, hl, hm] at ha
    · by_cases h5 : 1 / 2 ≤ |(vcount r - b0.mean_count) / b0.mean_count|
      · have h3 : 3 / 10 ≤ |(vcount r - b0.mean_count) / b0.mean_count| := by
          linarith
        have hval : detectOne lookup r =
            some ⟨r.timestamp.getD 0, r.location_id, .high,
              (vcount r - b0.mean_count) / b0.mean_count⟩ := by
          simp only [detectOne, hl]
          rw [if_neg hm, if_pos h5]
        refine ⟨iff_of_true (by rw [hval]; rfl) ⟨b0, rfl, hm, h3⟩, ?_⟩
        intro b a hb ha
        obtain rfl : b0 = b := Option.some_inj.mp hb
        rw [hval, Option.some.injEq] at ha
        subst ha
        exact ⟨rfl, rfl, rfl, iff_of_true rfl h5,
          iff_of_false (by simp) (fun hc => absurd h5 (not_le.mpr hc.2))⟩
      · by_cases h3 : 3 / 10 ≤ |(vcount r - b0.mean_count) / b0.mean_count|
        · have hval : detectOne lookup r =
              some ⟨r.timestamp.getD 0, r.location_id, .medium,
                (vcount r - b0.mean_count) / b0.mean_count⟩ := by
            simp only [detectOne, hl]
            rw [if_neg hm, if_neg h5, if_pos h3]
          refine ⟨iff_of_true (by rw [hval]; rfl) ⟨b0, rfl, hm, h3⟩, ?_⟩
          intro b a hb ha
          obtain rfl : b0 = b := Option.some_inj.mp hb
          rw [hval, Option.some.injEq] at ha
          subst ha
          exact ⟨rfl, rfl, rfl, iff_of_false (by simp) h5,
            iff_of_true rfl ⟨h3, not_le.mp h5⟩⟩
        · have hval : detectOne lookup r = none := by
            simp only [detectOne, hl]
            rw [if_neg hm, if_neg h5, if_neg h3]
          refine ⟨?_, ?_⟩
          · rw [hval]
            refine iff_of_false (by simp) ?_
            rintro ⟨b, hb, hbm, hbd⟩
            obtain rfl : b0 = b := Option.some_inj.mp hb
            exact h3 hbd
          · intro b a hb ha
            rw [hval] at ha
            exact absurd ha (by simp)

/-- C1 witness: with a baseline of mean 100 at the record's key, a count of
150 (deviation 0.50) is flagged high, and the emitted anomaly's fields
satisfy the classification. -/
theorem c1_anomaly_detector_witness :
    ((detectOne (fun l h => if l = "A" ∧ h = 8 then some ⟨"A", 8, 100, 0⟩ else none)
      ⟨some 8, "A", some 150, some 40⟩).isSome = true) ∧
    ∀ a, detectOne (fun l h => if l = "A" ∧ h = 8 then some ⟨"A", 8, 100, 0⟩ else none)
        ⟨some 8, "A", some 150, some 40⟩ = some a →
      a.severity = Severity.high := by
  constructor
  · exact (c1_anomaly_detector _ _).1.mpr
      ⟨⟨"A", 8, 100, 0⟩, rfl, by with_unfolding_all decide, by with_unfolding_all decide⟩
  · intro a ha
    have h := (c1_anomaly_detector
      (fun l h => if l = "A" ∧ h = 8 then some ⟨"A", 8, 100, 0⟩ else none)
      ⟨some 8, "A", some 150, some 40⟩).2 ⟨"A", 8, 100, 0⟩ a rfl ha
    refine h.2.2.2.1.mpr ?_
    rw [h.1]
    with_unfolding_all decide

lemma countP_eq_ite_of_nodup {α : Type} [DecidableEq α] {l : List α} (hl : l.Nodup)
    (k : α) : l.countP (fun x => x = k) = if k ∈ l then 1 else 0 := by
  induction l with
  | nil => simp
  | cons a t ih =>
    obtain ⟨ha, ht⟩ := List.nodup_cons.mp hl
    by_cases hak : a = k
    · subst hak
      simp [List.countP_cons, ih ht, ha]
    · simp [List.countP_cons, hak, ih ht, List.mem_cons, Ne.symm hak]

lemma sampleVar_nonneg (g : List Row) : 0 ≤ sampleVar g := by
  unfold sampleVar
  split
  · exact le_rfl
  · next hlen =>
    have h2 : 2 ≤ g.length := by omega
    have h2q : (2 : ℚ) ≤ (g.length : ℚ) := by exact_mod_cast h2
    refine div_nonneg ?_ (by linarith)
    refine List.sum_nonneg ?_
    intro x hx
    obtain ⟨r, _, rfl⟩ := List.mem_map.mp hx
    exact sq_nonneg _

/-- C2: the Baseline Calculator emits exactly one entry for every
(location_id, hour_of_day) pair present in the cleaned data and none for
any other pair; each entry's mean_count is the arithmetic mean of
vehicle_count over exactly the records of its group, and its spread is the
standard deviation of the group — the nonnegative square root of the
sample variance, which is 0 for a single-member group. -/
theorem c2_baseline_invariant (rows : List Row) :
    (∀ k : String × ℕ,
      (k ∈ baselineKeys rows ↔ ∃ r ∈ rows, baseKey r = k) ∧
      (calculate_baselines rows).countP (fun b => bKey b = k) =
        if k ∈ baselineKeys rows then 1 else 0) ∧
    (∀ b, b ∈ calculate_baselines rows →
      groupOf rows (bKey b) ≠ [] ∧
      b.mean_count =
        ((groupOf rows (bKey b)).map vcount).sum /
          ((groupOf rows (bKey b)).length : ℚ) ∧
      ((groupOf rows (bKey b)).length = 1 → b.spread = 0) ∧
      0 ≤ b.spread ∧
      b.spread ^ 2 = (sampleVar (groupOf rows (bKey b)) : ℝ)) := by
  constructor
  · intro k
    constructor
    · simp [baselineKeys, List.mem_dedup, List.mem_map]
    · unfold calculate_baselines
      rw [List.countP_map]
      have hcnt := countP_eq_ite_of_nodup
        (List.nodup_dedup (rows.map baseKey)) k
      by_cases hm : k ∈ baselineKeys rows
      · rw [if_pos hm]
        rw [if_pos (show k ∈ (rows.map baseKey).dedup from hm)] at hcnt
        exact hcnt
      · rw [if_neg hm]
        rw [if_neg (show k ∉ (rows.map baseKey).dedup from hm)] at hcnt
        exact hcnt
  · intro b hb
    unfold calculate_baselines at hb
    obtain ⟨k, hk, rfl⟩ := List.mem_map.mp hb
    have hne : groupOf rows k ≠ [] := by
      have hk' : k ∈ rows.map baseKey := List.mem_dedup.mp hk
      obtain ⟨r, hr, hrk⟩ := List.mem_map.mp hk'
      exact List.ne_nil_of_mem (List.mem_filter.mpr ⟨hr, by simp [hrk]⟩)
    refine ⟨hne, rfl, ?_, Real.sqrt_nonneg _, ?_⟩
    · intro hlen
      replace hlen : (groupOf rows k).length = 1 := hlen
      have hv : sampleVar (groupOf rows k) = 0 := by
        unfold sampleVar
        rw [if_pos (by omega)]
      show Real.sqrt (sampleVar (groupOf rows k) : ℝ) = 0
      rw [hv]
      simp
    · show Real.sqrt (sampleVar (groupOf rows k) : ℝ) ^ 2 =
        (sampleVar (groupOf rows k) : ℝ)
      exact Real.sq_sqrt (by exact_mod_cast sampleVar_nonneg _)

/-- C2 witness: for two records sharing the key (A, 8) with counts 1 and 3,
exactly one baseline entry carries that key, the key (A, 9) has none, and
the entry's mean is 2 with spread squared equal to the sample variance 2. -/
theorem c2_baseline_invariant_witness :
    (calculate_baselines
        [⟨some 8, "A", some 1, some 0⟩, ⟨some 8, "A", some 3, some 0⟩]).countP
      (fun b => bKey b = ("A", 8)) = 1 ∧
    (calculate_baselines
        [⟨some 8, "A", some 1, some 0⟩, ⟨some 8, "A", some 3, some 0⟩]).countP
      (fun b => bKey b = ("A", 9)) = 0 ∧
    ∀ b, b ∈ calculate_baselines
        [⟨some 8, "A", some 1, some 0⟩, ⟨some 8, "A", some 3, some 0⟩] →
      b.mean_count =
        ((groupOf [⟨some 8, "A", some 1, some 0⟩, ⟨some 8, "A", some 3, some 0⟩]
          (bKey b)).map vcount).sum /
        ((groupOf [⟨some 8, "A", some 1, some 0⟩, ⟨some 8, "A", some 3, some 0⟩]
          (bKey b)).length : ℚ) := by
  refine ⟨?_, ?_, ?_⟩
  · exact ((c2_baseline_invariant _).1 ("A", 8)).2.trans
      (if_pos (by with_unfolding_all decide))
  · exact ((c2_baseline_invariant _).1 ("A", 9)).2.trans
      (if_neg (by with_unfolding_all decide))
  · intro b hb
    exact ((c2_baseline_invariant _).2 b hb).2.1

lemma ratFloor_eq_intFloor (q : ℚ) : Rat.floor q = ⌊q⌋ :=
  (Rat.floor_def' q).trans Rat.floor_def.symm

lemma floorToNat_le {h : ℚ} (h0 : 0 ≤ h) : (((Rat.floor h).toNat : ℕ) : ℚ) ≤ h := by
  rw [ratFloor_eq_intFloor]
  have hnn : 0 ≤ ⌊h⌋ := Int.floor_nonneg.mpr h0
  have hcast : ((⌊h⌋.toNat : ℕ) : ℚ) = ((⌊h⌋ : ℤ) : ℚ) := by
    exact_mod_cast Int.toNat_of_nonneg hnn
  rw [hcast]
  exact Int.floor_le h

lemma lt_floorToNat_add_one {h : ℚ} (h0 : 0 ≤ h) :
    h < (((Rat.floor h).toNat : ℕ) : ℚ) + 1 := by
  rw [ratFloor_eq_intFloor]
  have hnn : 0 ≤ ⌊h⌋ := Int.floor_nonneg.mpr h0
  have hcast : ((⌊h⌋.toNat : ℕ) : ℚ) = ((⌊h⌋ : ℤ) : ℚ) := by
    exact_mod_cast Int.toNat_of_nonneg hnn
  rw [hcast]
  exact Int.lt_floor_add_one h

lemma floorToNat_mono {h1 h2 : ℚ} (hle : h1 ≤ h2) :
    (Rat.floor h1).toNat ≤ (Rat.floor h2).toNat := by
  rw [ratFloor_eq_intFloor, ratFloor_eq_intFloor]
  exact Int.toNat_le_toNat (Int.floor_le_floor hle)

lemma sorted_getElem_mono {s : List ℚ} (hs : s.Sorted (· ≤ ·)) {i j : ℕ}
    (h1 : i < s.length) (h2 : j < s.length) (hij : i ≤ j) : s[i] ≤ s[j] := by
  rcases eq_or_lt_of_le hij with heq | hlt
  · subst heq
    exact le_rfl
  · exact List.pairwise_iff_getElem.mp hs _ _ h1 h2 hlt

lemma sget_mono {s : List ℚ} (hs : s.Sorted (· ≤ ·)) {i j : ℕ} (hij : i ≤ j) :
    sget s i ≤ sget s j := by
  cases hnil : s with
  | nil => simp [sget]
  | cons a t =>
    rw [← hnil]
    have hn : 0 < s.length := by rw [hnil]; simp
    have h1 : min i (s.length - 1) < s.length := by omega
    have h2 : min j (s.length - 1) < s.length := by omega
    unfold sget
    rw [List.getD_eq_getElem _ _ h1, List.getD_eq_getElem _ _ h2]
    exact sorted_getElem_mono hs h1 h2 (by omega)

lemma interp_bounds {s : List ℚ} (hs : s.Sorted (· ≤ ·)) {h : ℚ} (h0 : 0 ≤ h) :
    sget s (Rat.floor h).toNat ≤ interp s h ∧
      interp s h ≤ sget s ((Rat.floor h).toNat + 1) := by
  have hab : sget s (Rat.floor h).toNat ≤ sget s ((Rat.floor h).toNat + 1) :=
    sget_mono hs (Nat.le_succ _)
  have hf1 : (((Rat.floor h).toNat : ℕ) : ℚ) ≤ h := floorToNat_le h0
  have hf2 : h < (((Rat.floor h).toNat : ℕ) : ℚ) + 1 := lt_floorToNat_add_one h0
  unfold interp
  constructor
  · nlinarith
  · nlinarith

lemma interp_mono {s : List ℚ} (hs : s.Sorted (· ≤ ·)) {h1 h2 : ℚ}
    (h10 : 0 ≤ h1) (h12 : h1 ≤ h2) : interp s h1 ≤ interp s h2 := by
  have h20 : 0 ≤ h2 := le_trans h10 h12
  have hii : (Rat.floor h1).toNat ≤ (Rat.floor h2).toNat := floorToNat_mono h12
  rcases eq_or_lt_of_le hii with heq | hlt
  · have hab : sget s (Rat.floor h2).toNat ≤ sget s ((Rat.floor h2).toNat + 1) :=
      sget_mono hs (Nat.le_succ _)
    unfold interp
    rw [heq]
    nlinarith
  · calc interp s h1 ≤ sget s ((Rat.floor h1).toNat + 1) := (interp_bounds hs h10).2
      _ ≤ sget s (Rat.floor h2).toNat := sget_mono hs hlt
      _ ≤ interp s h2 := (interp_bounds hs h20).1

lemma quantile_mono (vs : List ℚ) (hne : vs ≠ []) {q1 q2 : ℚ}
    (h0 : 0 ≤ q1) (hq : q1 ≤ q2) : quantile vs q1 ≤ quantile vs q2 := by
  have hlen : (sortQ vs).length = vs.length :=
    (List.perm_insertionSort _ vs).length_eq
  have hpos : 0 < vs.length := List.length_pos.mpr hne
  have hnz : ¬ (sortQ vs).length = 0 := by omega
  have hsorted : (sortQ vs).Sorted (· ≤ ·) := List.sorted_insertionSort _ vs
  have hfac : (0 : ℚ) ≤ ((sortQ vs).length : ℚ) - 1 := by
    have : (1 : ℚ) ≤ ((sortQ vs).length : ℚ) := by exact_mod_cast hlen ▸ hpos
    linarith
  simp only [quantile, if_neg hnz]
  exact interp_mono hsorted (mul_nonneg h0 hfac)
    (mul_le_mul_of_nonneg_right hq hfac)

lemma median_in_fence (c : Col) (g : List Row) (hne : colVals c g ≠ []) :
    fenceLo c g ≤ groupMedian c g ∧ groupMedian c g ≤ fenceHi c g := by
  have h1 : quantile (colVals c g) (1 / 4) ≤ quantile (colVals c g) (1 / 2) :=
    quantile_mono _ hne (by norm_num) (by norm_num)
  have h2 : quantile (colVals c g) (1 / 2) ≤ quantile (colVals c g) (3 / 4) :=
    quantile_mono _ hne (by norm_num) (by norm_num)
  simp only [fenceLo, fenceHi, groupMedian, medianQ]
  constructor <;> linarith

lemma colVal_setCol_same (c : Col) (r : Row) (x : ℚ) :
    colVal c (setCol c r (some x)) = x := by
  cases c <;> rfl

/-- C6: for a location group with at least 4 rows, the IQR step leaves every
value of the treated column inside the fence computed from that group's
values on entry — in-fence values are returned unchanged at their position
and out-of-fence values are replaced in place by the column's per-location
median, no row being dropped — while a group with fewer than 4 rows passes
through entirely unmodified. -/
theorem c6_iqr_fence (c : Col) (g : List Row) :
    (g.length < 4 → iqrStep c g = g) ∧
    (4 ≤ g.length →
      (iqrStep c g).length = g.length ∧
      (∀ r, r ∈ iqrStep c g →
        fenceLo c g ≤ colVal c r ∧ colVal c r ≤ fenceHi c g) ∧
      (∀ i, i < g.length →
        ((fenceLo c g ≤ colVal c (g.getD i defaultRow) ∧
            colVal c (g.getD i defaultRow) ≤ fenceHi c g) →
          (iqrStep c g).getD i defaultRow = g.getD i defaultRow) ∧
        ((colVal c (g.getD i defaultRow) < fenceLo c g ∨
            fenceHi c g < colVal c (g.getD i defaultRow)) →
          (iqrStep c g).getD i defaultRow =
            setCol c (g.getD i defaultRow) (some (groupMedian c g))))) := by
  constructor
  · intro hlt
    unfold iqrStep
    rw [if_pos hlt]
  · intro hge
    have hlt4 : ¬ g.length < 4 := by omega
    have hmap : iqrStep c g =
        g.map (fun r =>
          if colVal c r < fenceLo c g ∨ fenceHi c g < colVal c r then
            setCol c r (some (groupMedian c g))
          else r) := by
      unfold iqrStep
      rw [if_neg hlt4]
    have hvne : colVals c g ≠ [] := by
      have : (colVals c g).length = g.length := List.length_map _ _
      intro hempty
      rw [hempty] at this
      simp at this
      omega
    obtain ⟨hmlo, hmhi⟩ := median_in_fence c g hvne
    refine ⟨by rw [hmap]; exact List.length_map _ _, ?_, ?_⟩
    · intro r' hr'
      rw [hmap] at hr'
      obtain ⟨r, hr, rfl⟩ := List.mem_map.mp hr'
      by_cases hcond : colVal c r < fenceLo c g ∨ fenceHi c g < colVal c r
      · rw [if_pos hcond, colVal_setCol_same]
        exact ⟨hmlo, hmhi⟩
      · rw [if_neg hcond]
        push_neg at hcond
        exact hcond
    · intro i hi
      have hi' : i < (g.map (fun r =>
          if colVal c r < fenceLo c g ∨ fenceHi c g < colVal c r then
            setCol c r (some (groupMedian c g))
          else r)).length := by
        rw [List.length_map]
        exact hi
      have hget : (iqrStep c g).getD i defaultRow =
          (if colVal c (g.getD i defaultRow) < fenceLo c g ∨
              fenceHi c g < colVal c (g.getD i defaultRow) then
            setCol c (g.getD i defaultRow) (some (groupMedian c g))
          else g.getD i defaultRow) := by
        rw [hmap, List.getD_eq_getElem _ _ hi', List.getElem_map,
          List.getD_eq_getElem _ _ hi]
      constructor
      · intro hin
        rw [hget, if_neg]
        rintro (hlt | hgt)
        · exact absurd hin.1 (not_le.mpr hlt)
        · exact absurd hin.2 (not_le.mpr hgt)
      · intro hout
        rw [hget, if_pos hout]

/-- C6 witness: on the 4-row group with counts 0, 10, 10 and 1000 the
out-of-fence value 1000 at index 3 is replaced by the median 10, the
in-fence value at index 1 is unchanged, every surviving value is inside the
fence, and a 3-row group passes through unmodified. -/
theorem c6_iqr_fence_witness :
    iqrStep .vc
        [⟨some 0, "A", some 0, some 10⟩, ⟨some 1, "A", some 10, some 10⟩,
          ⟨some 2, "A", some 10, some 10⟩] =
      [⟨some 0, "A", some 0, some 10⟩, ⟨some 1, "A", some 10, some 10⟩,
        ⟨some 2, "A", some 10, some 10⟩] ∧
    (iqrStep .vc
        [⟨some 0, "A", some 0, some 10⟩, ⟨some 1, "A", some 10, some 10⟩,
          ⟨some 2, "A", some 10, some 10⟩, ⟨some 3, "A", some 1000, some 10⟩]).getD
      3 defaultRow =
      setCol .vc ⟨some 3, "A", some 1000, some 10⟩
        (some (groupMedian .vc
          [⟨some 0, "A", some 0, some 10⟩, ⟨some 1, "A", some 10, some 10⟩,
            ⟨some 2, "A", some 10, some 10⟩, ⟨some 3, "A", some 1000, some 10⟩])) ∧
    (iqrStep .vc
        [⟨some 0, "A", some 0, some 10⟩, ⟨some 1, "A", some 10, some 10⟩,
          ⟨some 2, "A", some 10, some 10⟩, ⟨some 3, "A", some 1000, some 10⟩]).getD
      1 defaultRow = ⟨some 1, "A", some 10, some 10⟩ := by
  refine ⟨?_, ?_, ?_⟩
  · exact (c6_iqr_fence .vc _).1 (by decide)
  · exact ((((c6_iqr_fence .vc
      [⟨some 0, "A", some 0, some 10⟩, ⟨some 1, "A", some 10, some 10⟩,
        ⟨some 2, "A", some 10, some 10⟩, ⟨some 3, "A", some 1000, some 10⟩]).2
      (by decide)).2.2 3 (by decide)).2
      (Or.inr (by with_unfolding_all decide)))
  · exact ((((c6_iqr_fence .vc
      [⟨some 0, "A", some 0, some 10⟩, ⟨some 1, "A", some 10, some 10⟩,
        ⟨some 2, "A", some 10, some 10⟩, ⟨some 3, "A", some 1000, some 10⟩]).2
      (by decide)).2.2 1 (by decide)).1
      ⟨by with_unfolding_all decide, by with_unfolding_all decide⟩)

lemma setCol_timestamp (c : Col) (r : Row) (v : Option ℚ) :
    (setCol c r v).timestamp = r.timestamp := by
  cases c <;> rfl

lemma getCol_setCol_same (c : Col) (r : Row) (v : Option ℚ) :
    getCol c (setCol c r v) = v := by
  cases c <;> rfl

lemma getCol_setCol_other {c c' : Col} (hne : c' ≠ c) (r : Row) (v : Option ℚ) :
    getCol c' (setCol c r v) = getCol c' r := by
  cases c <;> cases c' <;> first | rfl | exact absurd rfl hne

lemma mem_ffill_orig (c : Col) :
    ∀ (g : List Row) (last : Option ℚ) (r' : Row), r' ∈ ffillCol c g last →
      ∃ r ∈ g, r' = r ∨ ∃ v, r' = setCol c r v := by
  intro g
  induction g with
  | nil =>
    intro last r' h
    simp [ffillCol] at h
  | cons r rs ih =>
    intro last r' h
    cases hx : getCol c r with
    | some v =>
      rw [ffillCol, hx] at h
      rcases List.mem_cons.mp h with heq | hmem
      · exact ⟨r, List.mem_cons_self r rs, Or.inl heq⟩
      · obtain ⟨r0, hr0, ho⟩ := ih (some v) r' hmem
        exact ⟨r0, List.mem_cons_of_mem r hr0, ho⟩
    | none =>
      rw [ffillCol, hx] at h
      rcases List.mem_cons.mp h with heq | hmem
      · exact ⟨r, List.mem_cons_self r rs, Or.inr ⟨last, heq⟩⟩
      · obtain ⟨r0, hr0, ho⟩ := ih last r' hmem
        exact ⟨r0, List.mem_cons_of_mem r hr0, ho⟩

lemma mem_impute_orig (c : Col) (g : List Row) (r' : Row)
    (h : r' ∈ imputeCol c g) :
    ∃ r ∈ g, r' = r ∨ ∃ v : ℚ, r' = setCol c r (some v) := by
  unfold imputeCol at h
  obtain ⟨r, hr, heq⟩ := List.mem_map.mp h
  by_cases hn : (getCol c r).isNone = true
  · rw [if_pos hn] at heq
    exact ⟨r, hr, Or.inr ⟨_, heq.symm⟩⟩
  · rw [if_neg hn] at heq
    exact ⟨r, hr, Or.inl heq.symm⟩

lemma mem_iqr_orig (c : Col) (g : List Row) (r' : Row) (h : r' ∈ iqrStep c g) :
    ∃ r ∈ g, r' = r ∨ ∃ v : ℚ, r' = setCol c r (some v) := by
  unfold iqrStep at h
  by_cases hlen : g.length < 4
  · rw [if_pos hlen] at h
    exact ⟨r', h, Or.inl rfl⟩
  · rw [if_neg hlen] at h
    obtain ⟨r, hr, heq⟩ := List.mem_map.mp h
    by_cases hcond : colVal c r < fenceLo c g ∨ fenceHi c g < colVal c r
    · rw [if_pos hcond] at heq
      exact ⟨r, hr, Or.inr ⟨_, heq.symm⟩⟩
    · rw [if_neg hcond] at heq
      exact ⟨r, hr, Or.inl heq.symm⟩

lemma imputeCol_col_isSome (c : Col) (g : List Row) :
    ∀ r' ∈ imputeCol c g, (getCol c r').isSome = true := by
  intro r' h
  unfold imputeCol at h
  obtain ⟨r, hr, heq⟩ := List.mem_map.mp h
  by_cases hn : (getCol c r).isNone = true
  · rw [if_pos hn] at heq
    rw [← heq, getCol_setCol_same]
    rfl
  · rw [if_neg hn] at heq
    rw [← heq]
    cases hx : getCol c r
    · rw [hx] at hn
      simp at hn
    · rfl

lemma orig_timestamp {c : Col} {r r' : Row}
    (h : r' = r ∨ ∃ v, r' = setCol c r v) : r'.timestamp = r.timestamp := by
  rcases h with rfl | ⟨v, rfl⟩
  · rfl
  · exact setCol_timestamp c r v

lemma orig_some_timestamp {c : Col} {r r' : Row}
    (h : r' = r ∨ ∃ v : ℚ, r' = setCol c r (some v)) :
    r'.timestamp = r.timestamp := by
  rcases h with rfl | ⟨v, rfl⟩
  · rfl
  · exact setCol_timestamp c r (some v)

lemma orig_getCol_other {c c' : Col} (hne : c' ≠ c) {r r' : Row}
    (h : r' = r ∨ ∃ v, r' = setCol c r v) : getCol c' r' = getCol c' r := by
  rcases h with rfl | ⟨v, rfl⟩
  · rfl
  · exact getCol_setCol_other hne r v

lemma orig_some_getCol_other {c c' : Col} (hne : c' ≠ c) {r r' : Row}
    (h : r' = r ∨ ∃ v : ℚ, r' = setCol c r (some v)) :
    getCol c' r' = getCol c' r := by
  rcases h with rfl | ⟨v, rfl⟩
  · rfl
  · exact getCol_setCol_other hne r (some v)

lemma orig_some_col_isSome {c : Col} {r r' : Row}
    (h : r' = r ∨ ∃ v : ℚ, r' = setCol c r (some v))
    (hs : (getCol c r).isSome = true) : (getCol c r').isSome = true := by
  rcases h with rfl | ⟨v, rfl⟩
  · exact hs
  · rw [getCol_setCol_same]
    rfl

lemma cleanGroup_fields {g : List Row}
    (hts : ∀ r ∈ g, r.timestamp.isSome = true) :
    ∀ r' ∈ cleanGroup g, r'.timestamp.isSome = true ∧
      r'.vehicle_count.isSome = true ∧ r'.avg_speed_kmh.isSome = true := by
  intro rG hrG
  unfold cleanGroup at hrG
  obtain ⟨rF, hrF, hoG⟩ := mem_iqr_orig .avg _ rG hrG
  obtain ⟨rE, hrE, hoF⟩ := mem_iqr_orig .vc _ rF hrF
  obtain ⟨rD, hrD, hoE⟩ := mem_impute_orig .avg _ rE hrE
  obtain ⟨rC, hrC, hoD⟩ := mem_ffill_orig .avg _ none rD hrD
  obtain ⟨rB, hrB, hoC⟩ := mem_impute_orig .vc _ rC hrC
  obtain ⟨rA, hrA, hoB⟩ := mem_ffill_orig .vc _ none rB hrB
  have hgA : rA ∈ g := ((List.perm_insertionSort _ g).mem_iff).mp hrA
  have hvcC : (getCol .vc rC).isSome = true := imputeCol_col_isSome .vc _ rC hrC
  have hvcD : (getCol .vc rD).isSome = true := by
    rw [orig_getCol_other (by decide) hoD]
    exact hvcC
  have hvcE : (getCol .vc rE).isSome = true := by
    rw [orig_some_getCol_other (by decide) hoE]
    exact hvcD
  have hvcF : (getCol .vc rF).isSome = true := orig_some_col_isSome hoF hvcE
  have hvcG : (getCol .vc rG).isSome = true := by
    rw [orig_some_getCol_other (by decide) hoG]
    exact hvcF
  have havgE : (getCol .avg rE).isSome = true := imputeCol_col_isSome .avg _ rE hrE
  have havgF : (getCol .avg rF).isSome = true := by
    rw [orig_some_getCol_other (by decide) hoF]
    exact havgE
  have havgG : (getCol .avg rG).isSome = true := orig_some_col_isSome hoG havgF
  have htsG : rG.timestamp = rA.timestamp := by
    rw [orig_some_timestamp hoG, orig_some_timestamp hoF, orig_some_timestamp hoE,
      orig_timestamp hoD, orig_some_timestamp hoC, orig_timestamp hoB]
  refine ⟨?_, hvcG, havgG⟩
  rw [htsG]
  exact hts rA hgA

/-- C5 (amended): for every input on which cleaning succeeds, every record
of the cleaned output has a parsed timestamp and no missing value in either
numeric field, and cleaning the output again always succeeds (it never
raises DataQualityError). -/
theorem c5_cleaner_no_missing (rows out : List Row) (h : clean rows = .ok out) :
    (∀ r ∈ out, r.timestamp.isSome = true ∧ r.vehicle_count.isSome = true ∧
      r.avg_speed_kmh.isSome = true) ∧
    ∃ out2, clean out = .ok out2 := by
  unfold clean at h
  by_cases hq : rows.length <
      2 * (rows.length - (rows.filter (fun r => r.timestamp.isSome)).length)
  · rw [if_pos hq] at h
    exact absurd h (by simp)
  · rw [if_neg hq] at h
    injection h with h
    have hmem : ∀ r ∈ out, r.timestamp.isSome = true ∧
        r.vehicle_count.isSome = true ∧ r.avg_speed_kmh.isSome = true := by
      intro r hr
      rw [← h] at hr
      have hr2 := (List.perm_insertionSort rowLe _).mem_iff.mp hr
      obtain ⟨gl, hgl, hrgl⟩ := List.mem_flatten.mp hr2
      obtain ⟨l, _, rfl⟩ := List.mem_map.mp hgl
      refine cleanGroup_fields ?_ r hrgl
      intro r0 hr0
      exact (List.mem_filter.mp (List.mem_filter.mp hr0).1).2
    refine ⟨hmem, ?_⟩
    have hkeep : out.filter (fun r => r.timestamp.isSome) = out :=
      List.filter_eq_self.mpr (fun r hr => (hmem r hr).1)
    have hcond : ¬ out.length <
        2 * (out.length - (out.filter (fun r => r.timestamp.isSome)).length) := by
      rw [hkeep]
      omega
    exact ⟨_, by unfold clean; rw [if_neg hcond]⟩

/-- C5 counterexample: cleaning is not idempotent. On a single-location
4-row dataset with vehicle counts 0, 10, 10, 1000 the first pass replaces
1000 with the median 10 (0 is inside the wide fence), but on the resulting
counts 0, 10, 10, 10 the recomputed fence is [3.75, 13.75], so the second
pass also replaces the 0 — clean (clean x) differs from clean x. -/
theorem c5_cleaner_idempotence_counterexample :
    clean
        [⟨some 0, "A", some 0, some 10⟩, ⟨some 1, "A", some 10, some 10⟩,
          ⟨some 2, "A", some 10, some 10⟩, ⟨some 3, "A", some 1000, some 10⟩] =
      .ok [⟨some 0, "A", some 0, some 10⟩, ⟨some 1, "A", some 10, some 10⟩,
        ⟨some 2, "A", some 10, some 10⟩, ⟨some 3, "A", some 10, some 10⟩] ∧
    clean
        [⟨some 0, "A", some 0, some 10⟩, ⟨some 1, "A", some 10, some 10⟩,
          ⟨some 2, "A", some 10, some 10⟩, ⟨some 3, "A", some 10, some 10⟩] =
      .ok [⟨some 0, "A", some 10, some 10⟩, ⟨some 1, "A", some 10, some 10⟩,
        ⟨some 2, "A", some 10, some 10⟩, ⟨some 3, "A", some 10, some 10⟩] ∧
    ([⟨some 0, "A", some 10, some 10⟩, ⟨some 1, "A", some 10, some 10⟩,
        ⟨some 2, "A", some 10, some 10⟩, ⟨some 3, "A", some 10, some 10⟩] :
      List Row) ≠
      [⟨some 0, "A", some 0, some 10⟩, ⟨some 1, "A", some 10, some 10⟩,
        ⟨some 2, "A", some 10, some 10⟩, ⟨some 3, "A", some 10, some 10⟩] := by
  refine ⟨by with_unfolding_all rfl, by with_unfolding_all rfl, by decide⟩

/-- C5 witness: the amended theorem applied to the concrete 4-row dataset —
its cleaned output recleans successfully. -/
theorem c5_cleaner_no_missing_witness :
    ∃ out2,
      clean [⟨some 0, "A", some 0, some 10⟩, ⟨some 1, "A", some 10, some 10⟩,
        ⟨some 2, "A", some 10, some 10⟩, ⟨some 3, "A", some 10, some 10⟩] =
      .ok out2 :=
  (c5_cleaner_no_missing
    [⟨some 0, "A", some 0, some 10⟩, ⟨some 1, "A", some 10, some 10⟩,
      ⟨some 2, "A", some 10, some 10⟩, ⟨some 3, "A", some 1000, some 10⟩]
    [⟨some 0, "A", some 0, some 10⟩, ⟨some 1, "A", some 10, some 10⟩,
      ⟨some 2, "A", some 10, some 10⟩, ⟨some 3, "A", some 10, some 10⟩]
    (by with_unfolding_all rfl)).2

end Traffic
